import Mathlib

/-!
Shallow embedding of the MERN e-commerce backend's cart and product
controllers (`cartControllers` and `productControllers`), together with
proofs of the specification's claims about them.

Conventions of the embedding:
* Mongo object ids (user ids, product ids, category ids) are opaque
  strings.
* The document store is an association list keyed by the query key the
  controller uses (`Cart.findOne({user})` keys carts by user id).
* A JS `number` in a request payload is modelled as `Rat` (it may be
  non-integral); a validated cart quantity is the integer `Rat.num`.
* Each Express handler becomes a pure function from the request data and
  the current store to the HTTP-visible result and the new store.
* `populate` (joining user/category documents for display) does not
  change which documents are selected or written, so it is not modelled.
-/

namespace ECom

/-- Opaque Mongo object id (user id, product id, category id). -/
abbrev Id := String

/-- A cart line item: a product reference and a quantity
(`cartModel`: `items: [{ product, quantity }]`). -/
structure CartItem where
  product : Id
  quantity : Int
deriving Repr, DecidableEq

/-- The request body of `POST /api/cart/add` and `PUT /api/cart/update`
before validation: each field may be absent, and `quantity` may be any
JS number (modelled as a rational). -/
structure CartPayload where
  product : Option Id
  quantity : Option Rat
deriving Repr, DecidableEq

/-- The Joi `cartItemSchema` validated with `abortEarly: false`:
`product: Joi.string().required()`,
`quantity: Joi.number().integer().positive().required()`.
Returns the list of all violation messages, in schema/rule order. -/
def cartItemErrors (p : CartPayload) : List String :=
  (if p.product.isNone then ["Product ID is required"] else []) ++
  (match p.quantity with
   | none => ["Quantity is required"]
   | some q =>
     (if q.den ≠ 1 then ["Quantity must be an integer"] else []) ++
     (if q ≤ 0 then ["Quantity must be positive"] else []))

/-- The validated `value.product` (meaningful once validation passed). -/
def payloadProd (p : CartPayload) : Id :=
  p.product.getD ""

/-- The validated `value.quantity` (meaningful once validation passed:
the quantity is then an integer, i.e. equals its numerator). -/
def payloadQty (p : CartPayload) : Int :=
  match p.quantity with
  | none => 0
  | some q => q.num

/-- The cart collection: one document per user id, holding the item
sequence. `Cart.findOne({user})` is lookup by the user key. -/
abbrev CartStore := List (Id × List CartItem)

/-- `Cart.findOne({ user })`: first document whose user key matches. -/
def findCart : CartStore → Id → Option (List CartItem)
  | [], _ => none
  | (v, its) :: rest, u => if v = u then some its else findCart rest u

/-- `cart.save()` / `Cart.create`: replace the user's document in place,
or insert a fresh document when the user has none. -/
def saveCart : CartStore → Id → List CartItem → CartStore
  | [], u, items => [(u, items)]
  | (v, its) :: rest, u, items =>
    if v = u then (u, items) :: rest else (v, its) :: saveCart rest u items

/-- What a cart endpoint sends back: a 400 with the Joi error list, a
404 with an error string, or the (saved) cart's item sequence. -/
inductive CartResult where
  | invalid (errors : List String)
  | notFound (error : String)
  | ok (items : List CartItem)
deriving Repr, DecidableEq

/-- `cart.items.find((item) => item.product.equals(product))` followed by
`item.quantity += quantity`: increment the quantity of the first item
matching the product, leaving everything else in place. -/
def incFirst : List CartItem → Id → Int → List CartItem
  | [], _, _ => []
  | it :: rest, prod, qty =>
    if it.product == prod then { it with quantity := it.quantity + qty } :: rest
    else it :: incFirst rest prod qty

/-- `cart.items.find(...)` followed by `item.quantity = quantity`: set
the quantity of the first item matching the product. -/
def setFirst : List CartItem → Id → Int → List CartItem
  | [], _, _ => []
  | it :: rest, prod, qty =>
    if it.product == prod then { it with quantity := qty } :: rest
    else it :: setFirst rest prod qty

/-- `addToCart` (POST /api/cart/add): validate, then create a one-item
cart if the user has none; otherwise increment the first item matching
the product, or append a new item, and save. -/
def addToCart (s : CartStore) (u : Id) (p : CartPayload) : CartResult × CartStore :=
  if cartItemErrors p ≠ [] then (.invalid (cartItemErrors p), s)
  else
    let prod := payloadProd p
    let qty := payloadQty p
    match findCart s u with
    | none =>
      (.ok [⟨prod, qty⟩], saveCart s u [⟨prod, qty⟩])
    | some items =>
      let items2 :=
        if items.any (fun it => it.product == prod)
        then incFirst items prod qty
        else items ++ [⟨prod, qty⟩]
      (.ok items2, saveCart s u items2)

/-- `updateCart` (PUT /api/cart/update): validate, require a cart
("Cart not found") and a matching item ("Item not found in cart"),
set that item's quantity, and save. -/
def updateCart (s : CartStore) (u : Id) (p : CartPayload) : CartResult × CartStore :=
  if cartItemErrors p ≠ [] then (.invalid (cartItemErrors p), s)
  else
    match findCart s u with
    | none => (.notFound "Cart not found", s)
    | some items =>
      if items.any (fun it => it.product == payloadProd p) then
        let items2 := setFirst items (payloadProd p) (payloadQty p)
        (.ok items2, saveCart s u items2)
      else (.notFound "Item not found in cart", s)

/-- `removeFromCart` (DELETE /api/cart/remove/:productId): require a cart
("Cart not found"), then
`cart.items = cart.items.filter((item) => !item.product.equals(productId))`
and save. -/
def removeFromCart (s : CartStore) (u : Id) (productId : Id) : CartResult × CartStore :=
  match findCart s u with
  | none => (.notFound "Cart not found", s)
  | some items =>
    let items2 := items.filter (fun it => !(it.product == productId))
    (.ok items2, saveCart s u items2)

/-- `updateCartForUser` (PUT /api/cart/update/:userId):
`Cart.findOneAndUpdate({user: userId}, {items}, {new: true, upsert: true})`
— overwrite the item sequence (creating the document when absent) with no
validation and no merging, and return the updated cart. -/
def updateCartForUser (s : CartStore) (userId : Id) (items : List CartItem) :
    CartResult × CartStore :=
  (.ok items, saveCart s userId items)

/-! ### Cart invariants (spec §3) -/

/-- Pairwise-distinct ids: no id occurs twice in the list. -/
def nodupIds : List Id → Bool
  | [] => true
  | x :: xs => xs.all (fun y => !(y == x)) && nodupIds xs

/-- The cart invariant: within one cart, at most one item references a
given product. -/
def nodupBy (items : List CartItem) : Bool :=
  nodupIds (items.map CartItem.product)

/-- The invariant at a user's slot of the store (vacuously true when the
user has no cart). -/
def nodupAt (s : CartStore) (u : Id) : Bool :=
  match findCart s u with
  | none => true
  | some items => nodupBy items

/-- All quantities in a cart are positive. -/
def allPos (items : List CartItem) : Bool :=
  items.all (fun it => decide (0 < it.quantity))

/-- Quantity positivity at a user's slot of the store. -/
def posAt (s : CartStore) (u : Id) : Bool :=
  match findCart s u with
  | none => true
  | some items => allPos items

/-! ### Product controller -/

/-- A catalog product document (category held by reference). -/
structure Product where
  pid : Id
  name : String
  description : String
  price : Rat
  category : Id
  stock : Rat
  image : Option String
  brand : Option String
deriving Repr, DecidableEq

/-- The request body of product create/update before validation. -/
structure ProductPayload where
  name : Option String
  description : Option String
  price : Option Rat
  category : Option Id
  stock : Option Rat
  image : Option String
  brand : Option String
deriving Repr, DecidableEq

/-- The Joi `productSchema` validated with `abortEarly: false`: name,
description, price, category and stock are required (image and brand
optional); one message per missing field, in schema order. -/
def productErrors (p : ProductPayload) : List String :=
  (if p.name.isNone then ["Name is required"] else []) ++
  (if p.description.isNone then ["Description is required"] else []) ++
  (if p.price.isNone then ["Price is required"] else []) ++
  (if p.category.isNone then ["Category is required"] else []) ++
  (if p.stock.isNone then ["Stock is required"] else [])

/-- The product collection. -/
abbrev ProductStore := List Product

/-- `Product.findById`. -/
def findProd : ProductStore → Id → Option Product
  | [], _ => none
  | pr :: rest, i => if pr.pid = i then some pr else findProd rest i

/-- What a product endpoint sends back. -/
inductive ProdResult where
  | invalid (error : List String)
  | notFound (error : String)
  | okProd (product : Product)
  | okList (count : Nat) (products : List Product)
  | okMsg (message : String)
deriving Repr, DecidableEq

/-- `createProduct` (POST /api/products): validate with the full error
list, then `Product.create` (the store assigns the fresh id, passed here
as an explicit argument) and return the created document. -/
def createProduct (s : ProductStore) (freshId : Id) (p : ProductPayload) :
    ProdResult × ProductStore :=
  if productErrors p ≠ [] then (.invalid (productErrors p), s)
  else
    let prod : Product :=
      ⟨freshId, p.name.getD "", p.description.getD "", p.price.getD 0,
       p.category.getD "", p.stock.getD 0, p.image, p.brand⟩
    (.okProd prod, s ++ [prod])

/-- `updateProduct` (PUT /api/products/:id): validate with the full error
list, then `Product.findByIdAndUpdate` replacing every schema field
("Product not found" when the id does not exist). -/
def updateProduct (s : ProductStore) (i : Id) (p : ProductPayload) :
    ProdResult × ProductStore :=
  if productErrors p ≠ [] then (.invalid (productErrors p), s)
  else
    match findProd s i with
    | none => (.notFound "Product not found", s)
    | some old =>
      let newP : Product :=
        ⟨old.pid, p.name.getD "", p.description.getD "", p.price.getD 0,
         p.category.getD "", p.stock.getD 0, p.image, p.brand⟩
      (.okProd newP,
       s.map (fun pr => if pr.pid = i then newP else pr))

/-! ### The store's `$regex` name search

`getProducts` filters with
`{ name: { $regex: search, $options: "i" } }`: the search term is
interpreted by the store as a case-insensitive regular expression matched
anywhere in the name, not as a literal substring.  The model below covers
the fragment the theorems use: literal characters, the `.` wildcard and
the postfix quantifiers `*`, `+`, `?`.  Other PCRE metacharacters are not
modelled, and every theorem about a *literal* search term excludes all of
them via `isMeta`. -/

/-- A single regex token: the `.` wildcard or a literal character. -/
inductive RTok where
  | dot
  | lit (c : Char)
deriving Repr, DecidableEq

/-- A regex element: a token, possibly under a postfix quantifier. -/
inductive RElem where
  | one (t : RTok)
  | star (t : RTok)
  | plus (t : RTok)
  | opt (t : RTok)
deriving Repr, DecidableEq

/-- Does a token match a character? -/
def tokMatch : RTok → Char → Bool
  | .dot, _ => true
  | .lit c, d => c == d

/-- The token one pattern character denotes. -/
def mkTok (c : Char) : RTok :=
  if c = '.' then RTok.dot else RTok.lit c

/-- Parse a pattern string: each character is a literal (or the `.`
wildcard), optionally followed by `*`, `+` or `?`. -/
def parseRe : List Char → List RElem
  | [] => []
  | [c] => [RElem.one (mkTok c)]
  | c :: q :: r2 =>
    if q = '*' then RElem.star (mkTok c) :: parseRe r2
    else if q = '+' then RElem.plus (mkTok c) :: parseRe r2
    else if q = '?' then RElem.opt (mkTok c) :: parseRe r2
    else RElem.one (mkTok c) :: parseRe (q :: r2)

/-- Match `t*` greedily/alternatively before handing the rest of the
string to the continuation. -/
def starLoop (matchRest : List Char → Bool) (t : RTok) : List Char → Bool
  | [] => matchRest []
  | c :: s => matchRest (c :: s) || (tokMatch t c && starLoop matchRest t s)

/-- Does the element list match some prefix of the string? -/
def reMatchHere : List RElem → List Char → Bool
  | [], _ => true
  | RElem.one t :: ps, s =>
    match s with
    | [] => false
    | c :: s2 => tokMatch t c && reMatchHere ps s2
  | RElem.star t :: ps, s => starLoop (reMatchHere ps) t s
  | RElem.plus t :: ps, s =>
    match s with
    | [] => false
    | c :: s2 => tokMatch t c && starLoop (reMatchHere ps) t s2
  | RElem.opt t :: ps, s =>
    reMatchHere ps s ||
      (match s with
       | [] => false
       | c :: s2 => tokMatch t c && reMatchHere ps s2)

/-- Unanchored search: does the element list match starting at some
position of the string? -/
def reSearch (ps : List RElem) : List Char → Bool
  | [] => reMatchHere ps []
  | c :: rest => reMatchHere ps (c :: rest) || reSearch ps rest

/-- The characters of a string, lower-cased (the `"i"` option). -/
def lowerList (s : String) : List Char :=
  s.toList.map Char.toLower

/-- The store's case-insensitive `$regex` match of the search term
against a product name. -/
def mongoNameMatch (search name : String) : Bool :=
  reSearch (parseRe (lowerList search)) (lowerList name)

/-- PCRE metacharacters: a search term avoiding all of these is matched
by the store exactly as a literal. -/
def isMeta (c : Char) : Bool :=
  c = '.' || c = '*' || c = '+' || c = '?' || c = '^' || c = '$' ||
  c = '[' || c = ']' || c = '(' || c = ')' || c = '{' || c = '}' ||
  c = '|' || c = '\\'

/-- Is `pat` a prefix of the second list? -/
def isPre : List Char → List Char → Bool
  | [], _ => true
  | _ :: _, [] => false
  | a :: pat, b :: s => a == b && isPre pat s

/-- Is `pat` a contiguous substring of the second list? -/
def containsSub (pat : List Char) : List Char → Bool
  | [] => isPre pat []
  | c :: rest => isPre pat (c :: rest) || containsSub pat rest

/-- Modelled from the spec's words, for comparison with the code's
`$regex` behaviour: "name contains the search term as a case-insensitive
substring". -/
def specNameContains (search name : String) : Bool :=
  containsSub (lowerList search) (lowerList name)

/-- `getProducts` (GET /api/products): with a (non-empty — JS truthiness)
search term, return the products whose name matches it as a
case-insensitive regex, else the whole collection; respond with
`{count, products}` where `count = products.length`. -/
def getProducts (s : ProductStore) (search : Option String) : ProdResult :=
  let products :=
    match search with
    | some term =>
      if term = "" then s
      else s.filter (fun pr => mongoNameMatch term pr.name)
    | none => s
  .okList products.length products

/-- A JS array is always truthy, whatever its contents. -/
def arrayTruthy (_ : List Product) : Bool := true

/-- `getProductsByCategory` (GET /api/products/category/:categoryId):
`Product.find({category: categoryId})` with `{count, products}`; the
`else` 404 branch is guarded by the truthiness of the result array. -/
def getProductsByCategory (s : ProductStore) (categoryId : Id) : ProdResult :=
  let products := s.filter (fun pr => pr.category == categoryId)
  if arrayTruthy products then .okList products.length products
  else .notFound "Products not found for this category"

/-- A non-integral negative JS number (−3/2), used to exercise the
validation paths on concrete payloads. -/
def badQty : Rat := ⟨-3, 2, by decide, by decide⟩

/-- A concrete catalog document (name "Shoe") used on concrete inputs. -/
def shoeProd : Product := ⟨"p1", "Shoe", "d", 1, "c", 1, none, none⟩

/-- A concrete catalog document (name "Hat") used on concrete inputs. -/
def hatProd : Product := ⟨"p2", "Hat", "d", 1, "c", 1, none, none⟩

/-! ### Store lemmas -/

theorem findCart_saveCart_self (s : CartStore) (u : Id) (items : List CartItem) :
    findCart (saveCart s u items) u = some items := by
  induction s with
  | nil => simp [saveCart, findCart]
  | cons e rest ih =>
    obtain ⟨v, its⟩ := e
    by_cases h : v = u
    · subst h; simp [saveCart, findCart]
    · simp [saveCart, findCart, h, ih]

theorem findCart_saveCart_ne (s : CartStore) (u v : Id) (items : List CartItem)
    (h : v ≠ u) : findCart (saveCart s u items) v = findCart s v := by
  induction s with
  | nil => simp [saveCart, findCart, h.symm]
  | cons e rest ih =>
    obtain ⟨w, its⟩ := e
    by_cases hw : w = u
    · subst hw
      simp [saveCart, findCart, h.symm]
    · by_cases hv : w = v
      · subst hv; simp [saveCart, findCart, hw]
      · simp [saveCart, findCart, hw, hv, ih]

theorem saveCart_of_findCart (s : CartStore) (u : Id) (items : List CartItem)
    (h : findCart s u = some items) : saveCart s u items = s := by
  induction s with
  | nil => simp [findCart] at h
  | cons e rest ih =>
    obtain ⟨v, its⟩ := e
    by_cases hv : v = u
    · subst hv
      simp [findCart] at h
      simp [saveCart, h]
    · simp [findCart, hv] at h
      simp [saveCart, hv, ih h]

/-! ### Validation lemmas -/

/-- A payload passes the cart-item schema exactly when the product id is
present and the quantity is a present, integral, positive number. -/
theorem cartItemErrors_eq_nil (p : CartPayload) :
    cartItemErrors p = [] ↔
      (∃ P, p.product = some P) ∧ ∃ q, p.quantity = some q ∧ q.den = 1 ∧ 0 < q := by
  unfold cartItemErrors
  obtain ⟨oP, oq⟩ := p
  cases oP with
  | none => simp
  | some P =>
    cases oq with
    | none => simp
    | some q =>
      by_cases hd : q.den = 1 <;> by_cases hq : q ≤ 0
      · simp [hd, hq, not_lt.mpr hq]
      · simp [hd, hq, lt_of_not_le hq]
      · simp [hd, hq, not_lt.mpr hq]
      · simp [hd, hq, lt_of_not_le hq]

/-- Once validation passes, the validated quantity is positive. -/
theorem payloadQty_pos_of_valid (p : CartPayload) (h : cartItemErrors p = []) :
    0 < payloadQty p := by
  obtain ⟨-, q, hq, -, hpos⟩ := (cartItemErrors_eq_nil p).mp h
  simpa [payloadQty, hq] using Rat.num_pos.mpr hpos

/-- An integer-cast positive quantity together with a product id passes
validation. -/
theorem cartItemErrors_intCast (P : Id) (q : Int) (h : 0 < q) :
    cartItemErrors ⟨some P, some (q : Rat)⟩ = [] := by
  refine (cartItemErrors_eq_nil _).mpr ⟨⟨P, rfl⟩, (q : Rat), rfl, Rat.den_intCast q, ?_⟩
  exact_mod_cast h

theorem payloadQty_intCast (P : Id) (q : Int) :
    payloadQty ⟨some P, some (q : Rat)⟩ = q := by
  simp [payloadQty]

theorem payloadProd_some (P : Id) (oq : Option Rat) :
    payloadProd ⟨some P, oq⟩ = P := rfl

/-! ### Item-list lemmas -/

theorem nodupIds_iff (xs : List Id) : nodupIds xs = true ↔ xs.Nodup := by
  induction xs with
  | nil => simp [nodupIds]
  | cons x rest ih =>
    rw [List.nodup_cons, ← ih]
    simp only [nodupIds, Bool.and_eq_true, List.all_eq_true, Bool.not_eq_true']
    constructor
    · rintro ⟨h1, h2⟩
      refine ⟨fun hx => ?_, h2⟩
      have hxx := h1 x hx
      simp at hxx
    · rintro ⟨h1, h2⟩
      refine ⟨fun y hy => ?_, h2⟩
      have : y ≠ x := fun hyx => h1 (hyx ▸ hy)
      simpa using this

theorem nodupBy_iff (items : List CartItem) :
    nodupBy items = true ↔ (items.map CartItem.product).Nodup :=
  nodupIds_iff _

theorem incFirst_map_product (items : List CartItem) (prod : Id) (q : Int) :
    (incFirst items prod q).map CartItem.product = items.map CartItem.product := by
  induction items with
  | nil => rfl
  | cons it rest ih =>
    by_cases h : it.product == prod <;> simp [incFirst, h, ih]

theorem setFirst_map_product (items : List CartItem) (prod : Id) (q : Int) :
    (setFirst items prod q).map CartItem.product = items.map CartItem.product := by
  induction items with
  | nil => rfl
  | cons it rest ih =>
    by_cases h : it.product == prod <;> simp [setFirst, h, ih]

theorem nodupBy_filter (items : List CartItem) (pred : CartItem → Bool)
    (h : nodupBy items = true) : nodupBy (items.filter pred) = true := by
  rw [nodupBy_iff] at h ⊢
  exact List.Nodup.sublist (List.Sublist.map _ (List.filter_sublist _)) h

theorem nodupBy_append_new (items : List CartItem) (P : Id) (q : Int)
    (hnd : nodupBy items = true)
    (hnone : items.any (fun it => it.product == P) = false) :
    nodupBy (items ++ [⟨P, q⟩]) = true := by
  rw [nodupBy_iff] at hnd ⊢
  rw [List.map_append]
  refine List.Nodup.append hnd (List.nodup_singleton P) ?_
  intro a ha hb
  simp only [List.map_cons, List.map_nil, List.mem_singleton] at hb
  subst hb
  obtain ⟨it, hit, hp⟩ := List.mem_map.mp ha
  rw [List.any_eq_false] at hnone
  exact hnone it hit (by simpa using hp)

/-- The head of a nodup cart has no twin in the tail: filtering the tail
by the head's product id gives nothing. -/
theorem filter_tail_nil (it : CartItem) (rest : List CartItem)
    (hnd : nodupBy (it :: rest) = true) :
    rest.filter (fun it2 => it2.product == it.product) = [] := by
  rw [nodupBy_iff, List.map_cons, List.nodup_cons] at hnd
  rw [List.filter_eq_nil_iff]
  intro it2 hit2
  simp only [beq_iff_eq]
  intro hpp
  exact hnd.1 (List.mem_map.mpr ⟨it2, hit2, hpp⟩)

theorem nodupBy_tail (it : CartItem) (rest : List CartItem)
    (hnd : nodupBy (it :: rest) = true) : nodupBy rest = true := by
  rw [nodupBy_iff, List.map_cons, List.nodup_cons] at hnd
  rw [nodupBy_iff]
  exact hnd.2

/-- In a nodup cart holding `⟨P, q1⟩`, incrementing the first item for
`P` by `q2` leaves exactly one item for `P`, of quantity `q1 + q2`. -/
theorem incFirst_filter_self (items : List CartItem) (P : Id) (q1 q2 : Int)
    (hnd : nodupBy items = true) (hmem : (⟨P, q1⟩ : CartItem) ∈ items) :
    (incFirst items P q2).filter (fun it => it.product == P) = [⟨P, q1 + q2⟩] := by
  induction items with
  | nil => cases hmem
  | cons it rest ih =>
    rcases List.mem_cons.mp hmem with heq | hmem'
    · subst heq
      simp only [incFirst, beq_self_eq_true, if_pos]
      rw [List.filter_cons]
      simp only [beq_self_eq_true, if_pos]
      have := filter_tail_nil ⟨P, q1⟩ rest hnd
      simp only at this
      rw [this]
    · by_cases h : it.product == P
      · -- the head already references P, so ⟨P, q1⟩ ∈ rest contradicts nodup
        exfalso
        have hfil := filter_tail_nil it rest hnd
        rw [List.filter_eq_nil_iff] at hfil
        exact absurd (by simpa using (beq_iff_eq.mp h).symm)
          (by simpa using hfil _ hmem')
      · rw [incFirst]
        simp only [h, Bool.false_eq_true, if_false]
        rw [List.filter_cons]
        simp only [h, Bool.false_eq_true, if_false]
        exact ih (nodupBy_tail it rest hnd) hmem'

/-- In a nodup cart holding some item for `P`, setting the first item
for `P` to `q` leaves exactly one item for `P`, of quantity `q`. -/
theorem setFirst_filter_self (items : List CartItem) (P : Id) (q : Int)
    (hnd : nodupBy items = true)
    (hany : items.any (fun it => it.product == P) = true) :
    (setFirst items P q).filter (fun it => it.product == P) = [⟨P, q⟩] := by
  induction items with
  | nil => simp [List.any_nil] at hany
  | cons it rest ih =>
    by_cases h : it.product == P
    · rw [setFirst]
      simp only [h, if_true]
      rw [List.filter_cons]
      simp only [h, if_pos]
      have hp : it.product = P := beq_iff_eq.mp h
      have := filter_tail_nil it rest hnd
      rw [hp] at this
      rw [this]
      simp [hp]
    · rw [setFirst]
      simp only [h, Bool.false_eq_true, if_false]
      rw [List.filter_cons]
      simp only [h, Bool.false_eq_true, if_false]
      refine ih (nodupBy_tail it rest hnd) ?_
      rw [List.any_cons] at hany
      simpa [h] using hany

/-- Setting/incrementing an item for `P` does not touch the items for
other products. -/
theorem setFirst_filter_ne (items : List CartItem) (P : Id) (q : Int) :
    (setFirst items P q).filter (fun it => !(it.product == P)) =
      items.filter (fun it => !(it.product == P)) := by
  induction items with
  | nil => rfl
  | cons it rest ih =>
    by_cases h : it.product == P <;>
      simp [setFirst, List.filter_cons, h, ih]

theorem incFirst_filter_ne (items : List CartItem) (P : Id) (q : Int) :
    (incFirst items P q).filter (fun it => !(it.product == P)) =
      items.filter (fun it => !(it.product == P)) := by
  induction items with
  | nil => rfl
  | cons it rest ih =>
    by_cases h : it.product == P <;>
      simp [incFirst, List.filter_cons, h, ih]

/-! ### Quantity-positivity lemmas -/

theorem allPos_incFirst (items : List CartItem) (P : Id) (q : Int)
    (h : allPos items = true) (hq : 0 < q) : allPos (incFirst items P q) = true := by
  induction items with
  | nil => rfl
  | cons it rest ih =>
    simp only [allPos, List.all_cons, Bool.and_eq_true, decide_eq_true_eq] at h
    by_cases hp : it.product == P
    · simp only [incFirst, hp, if_pos, allPos, List.all_cons, Bool.and_eq_true,
        decide_eq_true_eq]
      exact ⟨by omega, h.2⟩
    · simp only [incFirst, hp, Bool.false_eq_true, if_false, allPos, List.all_cons,
        Bool.and_eq_true, decide_eq_true_eq]
      exact ⟨h.1, ih h.2⟩

theorem allPos_setFirst (items : List CartItem) (P : Id) (q : Int)
    (h : allPos items = true) (hq : 0 < q) : allPos (setFirst items P q) = true := by
  induction items with
  | nil => rfl
  | cons it rest ih =>
    simp only [allPos, List.all_cons, Bool.and_eq_true, decide_eq_true_eq] at h
    by_cases hp : it.product == P
    · simp only [setFirst, hp, if_pos, allPos, List.all_cons, Bool.and_eq_true,
        decide_eq_true_eq]
      exact ⟨hq, h.2⟩
    · simp only [setFirst, hp, Bool.false_eq_true, if_false, allPos, List.all_cons,
        Bool.and_eq_true, decide_eq_true_eq]
      exact ⟨h.1, ih h.2⟩

theorem allPos_append_one (items : List CartItem) (P : Id) (q : Int)
    (h : allPos items = true) (hq : 0 < q) :
    allPos (items ++ [⟨P, q⟩]) = true := by
  simp only [allPos, List.all_append, Bool.and_eq_true] at h ⊢
  exact ⟨h, by simpa using hq⟩

/-! ### Regex-model lemmas -/

/-- A pattern free of metacharacters parses as a sequence of literal
tokens. -/
theorem parseRe_lits (l : List Char) (h : ∀ c ∈ l, isMeta c = false) :
    parseRe l = l.map (fun c => RElem.one (RTok.lit c)) := by
  induction l using parseRe.induct with
  | case1 => rfl
  | case2 c =>
    have hdot : ¬ c = '.' := by
      rintro rfl
      exact absurd (h '.' (by simp)) (by decide)
    simp [parseRe, mkTok, hdot]
  | case3 c r2 ih => exact absurd (h '*' (by simp)) (by decide)
  | case4 c r2 hq ih => exact absurd (h '+' (by simp)) (by decide)
  | case5 c r2 hq1 hq2 ih => exact absurd (h '?' (by simp)) (by decide)
  | case6 c q r2 hq1 hq2 hq3 ih =>
    have hdot : ¬ c = '.' := by
      rintro rfl
      exact absurd (h '.' (by simp)) (by decide)
    have ih' := ih (fun c2 hc2 => h c2 (List.mem_cons_of_mem c hc2))
    simp [parseRe, mkTok, hdot, hq1, hq2, hq3, ih']

/-- A sequence of literal tokens matches at the current position exactly
when it is a prefix. -/
theorem reMatchHere_lits (pat s : List Char) :
    reMatchHere (pat.map (fun c => RElem.one (RTok.lit c))) s = isPre pat s := by
  induction pat generalizing s with
  | nil => cases s <;> simp [reMatchHere, isPre]
  | cons c pat ih =>
    cases s with
    | nil => simp [reMatchHere, isPre]
    | cons b s2 => simp [reMatchHere, isPre, tokMatch, ih]

/-- Searching a sequence of literal tokens is substring containment. -/
theorem reSearch_lits (pat s : List Char) :
    reSearch (pat.map (fun c => RElem.one (RTok.lit c))) s = containsSub pat s := by
  induction s with
  | nil => simp [reSearch, containsSub, reMatchHere_lits]
  | cons c rest ih => simp [reSearch, containsSub, reMatchHere_lits, ih]

/-- On metacharacter-free search terms the store's regex match is
exactly case-insensitive substring containment. -/
theorem mongoNameMatch_eq_contains (t name : String)
    (h : ∀ c ∈ lowerList t, isMeta c = false) :
    mongoNameMatch t name = specNameContains t name := by
  unfold mongoNameMatch specNameContains
  rw [parseRe_lits _ h, reSearch_lits]

theorem containsSub_nil_left (l : List Char) : containsSub [] l = true := by
  cases l <;> simp [containsSub, isPre]

/-! ### Claim theorems -/

/-- C1: if a user's cart (satisfying the one-item-per-product invariant)
already holds an item for product `P` with quantity `q1`, then
`addToCart` with a valid positive integer quantity `q2` succeeds and the
persisted cart holds exactly one item for `P`, of quantity `q1 + q2` —
quantities accumulate and no second entry for `P` is created. -/
theorem addToCart_accumulates (s : CartStore) (u P : Id) (q1 q2 : Int)
    (items : List CartItem) (hq2 : 0 < q2) (hfind : findCart s u = some items)
    (hnd : nodupBy items = true) (hmem : (⟨P, q1⟩ : CartItem) ∈ items) :
    ∃ items2,
      (addToCart s u ⟨some P, some (q2 : Rat)⟩).1 = .ok items2 ∧
      findCart (addToCart s u ⟨some P, some (q2 : Rat)⟩).2 u = some items2 ∧
      items2.filter (fun it => it.product == P) = [⟨P, q1 + q2⟩] := by
  have hval : cartItemErrors ⟨some P, some (q2 : Rat)⟩ = [] :=
    cartItemErrors_intCast P q2 hq2
  have hany : items.any (fun it => it.product == P) = true :=
    List.any_eq_true.mpr ⟨⟨P, q1⟩, hmem, by simp⟩
  have hstep : addToCart s u ⟨some P, some (q2 : Rat)⟩ =
      (.ok (incFirst items P q2), saveCart s u (incFirst items P q2)) := by
    simp [addToCart, hval, hfind, payloadProd, payloadQty, hany]
  refine ⟨incFirst items P q2, by rw [hstep], ?_, incFirst_filter_self items P q1 q2 hnd hmem⟩
  rw [hstep]
  exact findCart_saveCart_self s u _

theorem addToCart_accumulates_witness :
    ∃ items2,
      (addToCart [("u", [⟨"pen", 2⟩, ⟨"ink", 5⟩])] "u"
          ⟨some "pen", some ((3 : Int) : Rat)⟩).1 = .ok items2 ∧
      findCart (addToCart [("u", [⟨"pen", 2⟩, ⟨"ink", 5⟩])] "u"
          ⟨some "pen", some ((3 : Int) : Rat)⟩).2 "u" = some items2 ∧
      items2.filter (fun it => it.product == "pen") = [⟨"pen", 2 + 3⟩] :=
  addToCart_accumulates _ "u" "pen" 2 3 [⟨"pen", 2⟩, ⟨"ink", 5⟩] (by decide)
    (by decide) (by decide) (by decide)

/-- C2: the cart invariant "at most one item per product" is preserved
by `addToCart` (merge or append), `updateCart` and `removeFromCart`:
starting from a store whose cart for `u` satisfies it, each operation
leaves a cart for `u` that still satisfies it. -/
theorem cart_ops_preserve_invariant (s : CartStore) (u : Id) (p : CartPayload)
    (pid : Id) (h : nodupAt s u = true) :
    nodupAt (addToCart s u p).2 u = true ∧
    nodupAt (updateCart s u p).2 u = true ∧
    nodupAt (removeFromCart s u pid).2 u = true := by
  have hsave : ∀ items, nodupAt (saveCart s u items) u = nodupBy items := by
    intro items
    unfold nodupAt
    rw [findCart_saveCart_self]
  refine ⟨?_, ?_, ?_⟩
  · by_cases herr : cartItemErrors p = []
    · cases hfind : findCart s u with
      | none =>
        simp only [addToCart, herr, ne_eq, not_true_eq_false, if_false, hfind]
        rw [hsave]
        simp [nodupBy, nodupIds]
      | some items =>
        have hnd : nodupBy items = true := by
          unfold nodupAt at h
          rwa [hfind] at h
        by_cases hany : items.any (fun it => it.product == payloadProd p) = true
        · simp only [addToCart, herr, ne_eq, not_true_eq_false, if_false, hfind, hany,
            if_true]
          rw [hsave, nodupBy_iff, incFirst_map_product]
          exact (nodupBy_iff items).mp hnd
        · simp only [addToCart, herr, ne_eq, not_true_eq_false, if_false, hfind, hany,
            Bool.false_eq_true, if_false]
          rw [hsave]
          exact nodupBy_append_new items _ _ hnd (by simpa using hany)
    · simp only [addToCart, herr, ne_eq, not_false_eq_true, if_true]
      exact h
  · by_cases herr : cartItemErrors p = []
    · cases hfind : findCart s u with
      | none =>
        simp only [updateCart, herr, ne_eq, not_true_eq_false, if_false, hfind]
        exact h
      | some items =>
        have hnd : nodupBy items = true := by
          unfold nodupAt at h
          rwa [hfind] at h
        by_cases hany : items.any (fun it => it.product == payloadProd p) = true
        · simp only [updateCart, herr, ne_eq, not_true_eq_false, if_false, hfind, hany,
            if_true]
          rw [hsave, nodupBy_iff, setFirst_map_product]
          exact (nodupBy_iff items).mp hnd
        · simp only [updateCart, herr, ne_eq, not_true_eq_false, if_false, hfind, hany,
            Bool.false_eq_true, if_false]
          exact h
    · simp only [updateCart, herr, ne_eq, not_false_eq_true, if_true]
      exact h
  · cases hfind : findCart s u with
    | none =>
      simp only [removeFromCart, hfind]
      exact h
    | some items =>
      have hnd : nodupBy items = true := by
        unfold nodupAt at h
        rwa [hfind] at h
      simp only [removeFromCart, hfind]
      rw [hsave]
      exact nodupBy_filter items _ hnd

theorem cart_ops_preserve_invariant_witness :
    nodupAt (addToCart [("u", [⟨"a", 1⟩])] "u" ⟨some "a", some 2⟩).2 "u" = true ∧
    nodupAt (updateCart [("u", [⟨"a", 1⟩])] "u" ⟨some "a", some 2⟩).2 "u" = true ∧
    nodupAt (removeFromCart [("u", [⟨"a", 1⟩])] "u" "a").2 "u" = true :=
  cart_ops_preserve_invariant [("u", [⟨"a", 1⟩])] "u" ⟨some "a", some 2⟩ "a"
    (by decide)

/-- C3: `updateCart` with a valid positive integer quantity `q` sets the
quantity of the (unique, by the invariant) item for `P` to exactly `q`,
leaving the other items untouched, and persists; with no cart for the
user it returns 404 "Cart not found", and with a cart lacking an item
for `P` it returns 404 "Item not found in cart", both leaving the store
unchanged. -/
theorem updateCart_sets_quantity (s : CartStore) (u P : Id) (q : Int)
    (hq : 0 < q) :
    (∀ items, findCart s u = some items → nodupBy items = true →
      items.any (fun it => it.product == P) = true →
      ∃ items2,
        (updateCart s u ⟨some P, some (q : Rat)⟩).1 = .ok items2 ∧
        findCart (updateCart s u ⟨some P, some (q : Rat)⟩).2 u = some items2 ∧
        items2.filter (fun it => it.product == P) = [⟨P, q⟩] ∧
        items2.filter (fun it => !(it.product == P)) =
          items.filter (fun it => !(it.product == P))) ∧
    (findCart s u = none →
      updateCart s u ⟨some P, some (q : Rat)⟩ = (.notFound "Cart not found", s)) ∧
    (∀ items, findCart s u = some items →
      items.any (fun it => it.product == P) = false →
      updateCart s u ⟨some P, some (q : Rat)⟩ =
        (.notFound "Item not found in cart", s)) := by
  have hval : cartItemErrors ⟨some P, some (q : Rat)⟩ = [] :=
    cartItemErrors_intCast P q hq
  refine ⟨?_, ?_, ?_⟩
  · intro items hfind hnd hany
    have hstep : updateCart s u ⟨some P, some (q : Rat)⟩ =
        (.ok (setFirst items P q), saveCart s u (setFirst items P q)) := by
      simp [updateCart, hval, hfind, payloadProd, payloadQty, hany]
    refine ⟨setFirst items P q, by rw [hstep], ?_,
      setFirst_filter_self items P q hnd hany, setFirst_filter_ne items P q⟩
    rw [hstep]
    exact findCart_saveCart_self s u _
  · intro hfind
    simp [updateCart, hval, hfind]
  · intro items hfind hany
    simp [updateCart, hval, hfind, payloadProd, hany]

theorem updateCart_sets_quantity_witness :
    (∃ items2,
      (updateCart [("u", [⟨"p", 5⟩, ⟨"r", 2⟩])] "u"
          ⟨some "p", some ((7 : Int) : Rat)⟩).1 = .ok items2 ∧
      findCart (updateCart [("u", [⟨"p", 5⟩, ⟨"r", 2⟩])] "u"
          ⟨some "p", some ((7 : Int) : Rat)⟩).2 "u" = some items2 ∧
      items2.filter (fun it => it.product == "p") = [⟨"p", 7⟩] ∧
      items2.filter (fun it => !(it.product == "p")) =
        [⟨"p", 5⟩, ⟨"r", 2⟩].filter (fun it => !(it.product == "p"))) ∧
    updateCart [] "u" ⟨some "p", some ((7 : Int) : Rat)⟩ =
      (.notFound "Cart not found", []) ∧
    updateCart [("u", [⟨"r", 2⟩])] "u" ⟨some "p", some ((7 : Int) : Rat)⟩ =
      (.notFound "Item not found in cart", [("u", [⟨"r", 2⟩])]) :=
  ⟨(updateCart_sets_quantity [("u", [⟨"p", 5⟩, ⟨"r", 2⟩])] "u" "p" 7 (by decide)).1
      [⟨"p", 5⟩, ⟨"r", 2⟩] (by decide) (by decide) (by decide),
    (updateCart_sets_quantity [] "u" "p" 7 (by decide)).2.1 (by decide),
    (updateCart_sets_quantity [("u", [⟨"r", 2⟩])] "u" "p" 7 (by decide)).2.2
      [⟨"r", 2⟩] (by decide) (by decide)⟩

/-- C4: `addToCart` and `updateCart` reject any payload with a missing
product id or a missing, non-integral, or non-positive quantity,
answering 400 with the full list of violation messages and leaving the
store untouched (for every store alike, so the store is not even
consulted); consequently quantity positivity of the stored cart is
preserved by both operations. -/
theorem cart_validation_rejects (s : CartStore) (u : Id) (p : CartPayload) :
    (cartItemErrors p ≠ [] →
      addToCart s u p = (.invalid (cartItemErrors p), s) ∧
      updateCart s u p = (.invalid (cartItemErrors p), s)) ∧
    (p.product = none → "Product ID is required" ∈ cartItemErrors p) ∧
    (p.quantity = none → "Quantity is required" ∈ cartItemErrors p) ∧
    (∀ q, p.quantity = some q → q.den ≠ 1 →
      "Quantity must be an integer" ∈ cartItemErrors p) ∧
    (∀ q, p.quantity = some q → q ≤ 0 →
      "Quantity must be positive" ∈ cartItemErrors p) ∧
    (posAt s u = true →
      posAt (addToCart s u p).2 u = true ∧ posAt (updateCart s u p).2 u = true) := by
  have hsave : ∀ items, posAt (saveCart s u items) u = allPos items := by
    intro items
    unfold posAt
    rw [findCart_saveCart_self]
  refine ⟨fun herr => ?_, fun hP => ?_, fun hq => ?_, fun q hq hden => ?_,
    fun q hq hle => ?_, fun hpos => ?_⟩
  · constructor
    · simp [addToCart, herr]
    · simp [updateCart, herr]
  · simp [cartItemErrors, hP]
  · simp [cartItemErrors, hq]
  · simp [cartItemErrors, hq, hden]
  · simp [cartItemErrors, hq, hle]
  · by_cases herr : cartItemErrors p = []
    · have hqpos : 0 < payloadQty p := payloadQty_pos_of_valid p herr
      constructor
      · cases hfind : findCart s u with
        | none =>
          simp only [addToCart, herr, ne_eq, not_true_eq_false, if_false, hfind]
          rw [hsave]
          simp only [allPos, List.all_cons, List.all_nil, Bool.and_true,
            decide_eq_true_eq]
          exact hqpos
        | some items =>
          have hpos' : allPos items = true := by
            unfold posAt at hpos
            rwa [hfind] at hpos
          by_cases hany : items.any (fun it => it.product == payloadProd p) = true
          · simp only [addToCart, herr, ne_eq, not_true_eq_false, if_false, hfind,
              hany, if_true]
            rw [hsave]
            exact allPos_incFirst items _ _ hpos' hqpos
          · simp only [addToCart, herr, ne_eq, not_true_eq_false, if_false, hfind,
              hany, Bool.false_eq_true, if_false]
            rw [hsave]
            exact allPos_append_one items _ _ hpos' hqpos
      · cases hfind : findCart s u with
        | none =>
          simp only [updateCart, herr, ne_eq, not_true_eq_false, if_false, hfind]
          exact hpos
        | some items =>
          have hpos' : allPos items = true := by
            unfold posAt at hpos
            rwa [hfind] at hpos
          by_cases hany : items.any (fun it => it.product == payloadProd p) = true
          · simp only [updateCart, herr, ne_eq, not_true_eq_false, if_false, hfind,
              hany, if_true]
            rw [hsave]
            exact allPos_setFirst items _ _ hpos' hqpos
          · simp only [updateCart, herr, ne_eq, not_true_eq_false, if_false, hfind,
              hany, Bool.false_eq_true, if_false]
            exact hpos
    · constructor
      · simp only [addToCart, herr, ne_eq, not_false_eq_true, if_true]
        exact hpos
      · simp only [updateCart, herr, ne_eq, not_false_eq_true, if_true]
        exact hpos

theorem cart_validation_rejects_witness :
    (addToCart [("u", [⟨"a", 1⟩])] "u" ⟨none, some badQty⟩ =
      (.invalid ["Product ID is required", "Quantity must be an integer",
        "Quantity must be positive"], [("u", [⟨"a", 1⟩])]) ∧
     updateCart [("u", [⟨"a", 1⟩])] "u" ⟨none, some badQty⟩ =
      (.invalid ["Product ID is required", "Quantity must be an integer",
        "Quantity must be positive"], [("u", [⟨"a", 1⟩])])) ∧
    "Product ID is required" ∈ cartItemErrors ⟨none, some badQty⟩ ∧
    "Quantity must be an integer" ∈ cartItemErrors ⟨none, some badQty⟩ ∧
    "Quantity must be positive" ∈ cartItemErrors ⟨none, some badQty⟩ ∧
    posAt (addToCart [("u", [⟨"a", 1⟩])] "u" ⟨none, some badQty⟩).2 "u" = true :=
  have h := cart_validation_rejects [("u", [⟨"a", 1⟩])] "u" ⟨none, some badQty⟩
  have herr : cartItemErrors ⟨none, some badQty⟩ =
      ["Product ID is required", "Quantity must be an integer",
       "Quantity must be positive"] := by decide
  ⟨⟨by rw [(h.1 (by decide)).1, herr], by rw [(h.1 (by decide)).2, herr]⟩,
    h.2.1 rfl, h.2.2.2.1 badQty rfl (by decide), h.2.2.2.2.1 badQty rfl (by decide),
    (h.2.2.2.2.2 (by decide)).1⟩

/-- C5: `removeFromCart` with no cart answers 404 "Cart not found"; with
a cart it succeeds, persisting the items not referencing `P` — a strict
no-op (store unchanged, success returned) when no item references `P` —
and the operation is idempotent: applying it twice equals applying it
once. -/
theorem removeFromCart_spec (s : CartStore) (u P : Id) :
    (findCart s u = none → removeFromCart s u P = (.notFound "Cart not found", s)) ∧
    (∀ items, findCart s u = some items →
      (removeFromCart s u P).1 = .ok (items.filter (fun it => !(it.product == P))) ∧
      findCart (removeFromCart s u P).2 u =
        some (items.filter (fun it => !(it.product == P))) ∧
      (items.all (fun it => !(it.product == P)) = true →
        removeFromCart s u P = (.ok items, s))) ∧
    removeFromCart (removeFromCart s u P).2 u P = removeFromCart s u P := by
  refine ⟨fun hfind => by simp [removeFromCart, hfind], fun items hfind => ?_, ?_⟩
  · have hstep : removeFromCart s u P =
        (.ok (items.filter (fun it => !(it.product == P))),
         saveCart s u (items.filter (fun it => !(it.product == P)))) := by
      simp [removeFromCart, hfind]
    refine ⟨by rw [hstep], by rw [hstep]; exact findCart_saveCart_self s u _,
      fun hall => ?_⟩
    have hfil : items.filter (fun it => !(it.product == P)) = items :=
      List.filter_eq_self.mpr (List.all_eq_true.mp hall)
    rw [hstep, hfil, saveCart_of_findCart s u items hfind]
  · cases hfind : findCart s u with
    | none => simp [removeFromCart, hfind]
    | some items =>
      have hstep : removeFromCart s u P =
          (.ok (items.filter (fun it => !(it.product == P))),
           saveCart s u (items.filter (fun it => !(it.product == P)))) := by
        simp [removeFromCart, hfind]
      rw [hstep]
      have hfind2 : findCart (saveCart s u
          (items.filter (fun it => !(it.product == P)))) u =
          some (items.filter (fun it => !(it.product == P))) :=
        findCart_saveCart_self s u _
      have hfil : (items.filter (fun it => !(it.product == P))).filter
          (fun it => !(it.product == P)) =
          items.filter (fun it => !(it.product == P)) :=
        List.filter_eq_self.mpr (fun a ha => (List.mem_filter.mp ha).2)
      simp only [removeFromCart, hfind2, hfil]
      rw [saveCart_of_findCart _ u _ hfind2]

theorem removeFromCart_spec_witness :
    (removeFromCart [("v", [⟨"a", 1⟩])] "u" "a" =
      (.notFound "Cart not found", [("v", [⟨"a", 1⟩])])) ∧
    ((removeFromCart [("u", [⟨"a", 1⟩, ⟨"b", 2⟩])] "u" "a").1 =
        .ok (([⟨"a", 1⟩, ⟨"b", 2⟩] : List CartItem).filter
          (fun it => !(it.product == "a"))) ∧
      findCart (removeFromCart [("u", [⟨"a", 1⟩, ⟨"b", 2⟩])] "u" "a").2 "u" =
        some (([⟨"a", 1⟩, ⟨"b", 2⟩] : List CartItem).filter
          (fun it => !(it.product == "a"))) ∧
      (([⟨"a", 1⟩, ⟨"b", 2⟩] : List CartItem).all
          (fun it => !(it.product == "a")) = true →
        removeFromCart [("u", [⟨"a", 1⟩, ⟨"b", 2⟩])] "u" "a" =
          (.ok [⟨"a", 1⟩, ⟨"b", 2⟩], [("u", [⟨"a", 1⟩, ⟨"b", 2⟩])]))) ∧
    removeFromCart (removeFromCart [("u", [⟨"a", 1⟩, ⟨"b", 2⟩])] "u" "a").2 "u" "a" =
      removeFromCart [("u", [⟨"a", 1⟩, ⟨"b", 2⟩])] "u" "a" :=
  ⟨(removeFromCart_spec [("v", [⟨"a", 1⟩])] "u" "a").1 (by decide),
    (removeFromCart_spec [("u", [⟨"a", 1⟩, ⟨"b", 2⟩])] "u" "a").2.1
      [⟨"a", 1⟩, ⟨"b", 2⟩] (by decide),
    (removeFromCart_spec [("u", [⟨"a", 1⟩, ⟨"b", 2⟩])] "u" "a").2.2⟩

/-- C6: product create and update validate before any store access: a
payload missing required fields is answered with exactly one message per
missing field (all of them at once), 400, and the catalog (universally
quantified, hence unread) unchanged. -/
theorem product_validation_exhaustive (cs : ProductStore) (freshId i : Id)
    (p : ProductPayload) :
    (productErrors p ≠ [] →
      createProduct cs freshId p = (.invalid (productErrors p), cs) ∧
      updateProduct cs i p = (.invalid (productErrors p), cs)) ∧
    ("Name is required" ∈ productErrors p ↔ p.name = none) ∧
    ("Description is required" ∈ productErrors p ↔ p.description = none) ∧
    ("Price is required" ∈ productErrors p ↔ p.price = none) ∧
    ("Category is required" ∈ productErrors p ↔ p.category = none) ∧
    ("Stock is required" ∈ productErrors p ↔ p.stock = none) ∧
    (productErrors p).length =
      ((if p.name.isNone then 1 else 0) + (if p.description.isNone then 1 else 0) +
       (if p.price.isNone then 1 else 0) + (if p.category.isNone then 1 else 0) +
       (if p.stock.isNone then 1 else 0)) ∧
    (productErrors p ≠ [] ↔
      (p.name = none ∨ p.description = none ∨ p.price = none ∨
       p.category = none ∨ p.stock = none)) := by
  obtain ⟨n, d, pr, c, st, im, br⟩ := p
  refine ⟨fun herr => ⟨by simp [createProduct, herr], by simp [updateProduct, herr]⟩,
    ?_⟩
  cases n <;> cases d <;> cases pr <;> cases c <;> cases st <;>
    simp [productErrors]

theorem product_validation_exhaustive_witness :
    (createProduct [] "f1" ⟨none, some "d", none, some "c", none, none, none⟩ =
      (.invalid ["Name is required", "Price is required", "Stock is required"],
        []) ∧
     updateProduct [] "i1" ⟨none, some "d", none, some "c", none, none, none⟩ =
      (.invalid ["Name is required", "Price is required", "Stock is required"],
        [])) ∧
    ("Name is required" ∈
      productErrors ⟨none, some "d", none, some "c", none, none, none⟩ ↔
        (none : Option String) = none) :=
  have h := product_validation_exhaustive [] "f1" "i1"
    ⟨none, some "d", none, some "c", none, none, none⟩
  have herr : productErrors ⟨none, some "d", none, some "c", none, none, none⟩ =
      ["Name is required", "Price is required", "Stock is required"] := by decide
  ⟨⟨by rw [(h.1 (by decide)).1, herr], by rw [(h.1 (by decide)).2, herr]⟩, h.2.1⟩

/-- C7 counterexample: the claim "list(searchTerm) returns exactly those
Products whose name contains the search term as a case-insensitive
substring" is false as stated: the term is handed to the store as a
regular expression, so searching for "." returns the product named
"Shoe" although "." is not a substring of its name. -/
theorem getProducts_regex_counterexample :
    getProducts [shoeProd] (some ".") = .okList 1 [shoeProd] ∧
    specNameContains "." shoeProd.name = false := by decide

/-- C7 (amended): the search term is interpreted as a case-insensitive
regular expression; for every search term free of regex metacharacters,
`getProducts` returns exactly the products whose name contains the term
as a case-insensitive substring, with count equal to the length of the
returned sequence, and with no search term it returns the full
collection. -/
theorem getProducts_search (cs : ProductStore) (t : String)
    (h : ∀ c ∈ lowerList t, isMeta c = false) :
    getProducts cs (some t) =
      .okList (cs.filter (fun pr => specNameContains t pr.name)).length
        (cs.filter (fun pr => specNameContains t pr.name)) ∧
    getProducts cs none = .okList cs.length cs := by
  constructor
  · by_cases ht : t = ""
    · subst ht
      have hall : ∀ pr : Product, pr ∈ cs → specNameContains "" pr.name = true :=
        fun pr _ => containsSub_nil_left _
      rw [List.filter_eq_self.mpr hall]
      simp [getProducts]
    · have hfil : cs.filter (fun pr => mongoNameMatch t pr.name) =
          cs.filter (fun pr => specNameContains t pr.name) :=
        List.filter_congr (fun pr _ => mongoNameMatch_eq_contains t pr.name h)
      simp [getProducts, ht, hfil]
  · simp [getProducts]

theorem getProducts_search_witness :
    getProducts [shoeProd, hatProd] (some "Sh") =
      .okList (([shoeProd, hatProd] : ProductStore).filter
          (fun pr => specNameContains "Sh" pr.name)).length
        (([shoeProd, hatProd] : ProductStore).filter
          (fun pr => specNameContains "Sh" pr.name)) ∧
    getProducts [shoeProd, hatProd] none =
      .okList ([shoeProd, hatProd] : ProductStore).length [shoeProd, hatProd] :=
  getProducts_search [shoeProd, hatProd] "Sh" (by decide)

/-- C8: `getProductsByCategory` always answers success with exactly the
products whose category reference equals the id and with count equal to
their number — in particular an empty result is a success with count 0 —
and never takes the not-found branch (a JS array is always truthy). -/
theorem getProductsByCategory_ok (cs : ProductStore) (categoryId : Id) :
    getProductsByCategory cs categoryId =
      .okList (cs.filter (fun pr => pr.category == categoryId)).length
        (cs.filter (fun pr => pr.category == categoryId)) ∧
    ∀ e, getProductsByCategory cs categoryId ≠ .notFound e := by
  refine ⟨rfl, fun e hne => ?_⟩
  simp [getProductsByCategory, arrayTruthy] at hne

theorem getProductsByCategory_ok_witness :
    getProductsByCategory [] "c" = .okList 0 [] ∧
    getProductsByCategory [] "c" ≠
      .notFound "Products not found for this category" :=
  ⟨(getProductsByCategory_ok [] "c").1,
    (getProductsByCategory_ok [] "c").2 "Products not found for this category"⟩

/-- C9: `updateCartForUser` overwrites the target user's item sequence
verbatim in one upsert — the items are stored as given (no merge, no
validation), the cart is created when absent, other users' carts are
untouched, and the resulting cart is returned. -/
theorem updateCartForUser_overwrites (s : CartStore) (userId : Id)
    (items : List CartItem) :
    (updateCartForUser s userId items).1 = .ok items ∧
    findCart (updateCartForUser s userId items).2 userId = some items ∧
    ∀ v, v ≠ userId → findCart (updateCartForUser s userId items).2 v = findCart s v :=
  ⟨rfl, findCart_saveCart_self s userId items,
    fun v hv => findCart_saveCart_ne s userId v items hv⟩

theorem updateCartForUser_overwrites_witness :
    (updateCartForUser [] "u" [⟨"p", -1⟩, ⟨"p", 2⟩]).1 = .ok [⟨"p", -1⟩, ⟨"p", 2⟩] ∧
    findCart (updateCartForUser [] "u" [⟨"p", -1⟩, ⟨"p", 2⟩]).2 "u" =
      some [⟨"p", -1⟩, ⟨"p", 2⟩] ∧
    findCart (updateCartForUser [] "u" [⟨"p", -1⟩, ⟨"p", 2⟩]).2 "v" =
      findCart [] "v" :=
  have h := updateCartForUser_overwrites [] "u" [⟨"p", -1⟩, ⟨"p", 2⟩]
  ⟨h.1, h.2.1, h.2.2 "v" (by decide)⟩

/-- C10: `removeFromCart` filters out every item referencing `P`, not
just the first: for any stored cart — including one holding several
entries for `P` — the persisted cart afterwards contains no item
referencing `P`. -/
theorem removeFromCart_removes_every_match (s : CartStore) (u P : Id)
    (items : List CartItem) (hfind : findCart s u = some items) :
    ∃ items2,
      (removeFromCart s u P).1 = .ok items2 ∧
      findCart (removeFromCart s u P).2 u = some items2 ∧
      items2 = items.filter (fun it => !(it.product == P)) ∧
      items2.all (fun it => !(it.product == P)) = true := by
  refine ⟨items.filter (fun it => !(it.product == P)), ?_, ?_, rfl, ?_⟩
  · simp [removeFromCart, hfind]
  · simp [removeFromCart, hfind, findCart_saveCart_self]
  · rw [List.all_eq_true]
    exact fun it hit => (List.mem_filter.mp hit).2

theorem removeFromCart_removes_every_match_witness :
    ∃ items2,
      (removeFromCart (updateCartForUser [] "w" [⟨"p", 1⟩, ⟨"p", 2⟩, ⟨"q", 3⟩]).2
          "w" "p").1 = .ok items2 ∧
      findCart (removeFromCart (updateCartForUser [] "w"
          [⟨"p", 1⟩, ⟨"p", 2⟩, ⟨"q", 3⟩]).2 "w" "p").2 "w" = some items2 ∧
      items2 = ([⟨"p", 1⟩, ⟨"p", 2⟩, ⟨"q", 3⟩] : List CartItem).filter
          (fun it => !(it.product == "p")) ∧
      items2.all (fun it => !(it.product == "p")) = true :=
  removeFromCart_removes_every_match _ "w" "p" [⟨"p", 1⟩, ⟨"p", 2⟩, ⟨"q", 3⟩]
    (by decide)

end ECom
